import Mathlib

/-!
Shallow embedding of the tree-walking interpreter (Lexer/Parser/AST/EvalVisitor)
of the `dimbo4ka/interpreter` repository, restricted to the constructs the
verified claims touch.

Modelling decisions, each mirroring the C++ source:

* Numbers (`double`) are modelled exactly by `Dbl`, a numerator/denominator
  pair compared by cross-multiplication; every claim evaluates only numbers
  on which double arithmetic is exact (small integers and halves). Division,
  `fmod` and `pow` nodes are omitted: no claim mentions them and their IEEE
  corner cases (infinities, NaN) are outside the exact model.
* `std::shared_ptr<List>` values are heap references: `Value.list a` holds an
  address into `EvalState.heap`, allocation appends. `std::less` and
  `std::equal_to` on `shared_ptr` compare the raw pointers; the model compares
  addresses, with allocation order standing in for the pointer order (the
  implementation-defined C++ order is some strict total order; the theorems
  that depend on it use only totality and irreflexivity).
* `std::shared_ptr<FunctionDefinition>` identity is the `fid` field that the
  parser stamps on each function literal (one shared definition per literal).
* The evaluator state carries the result register, the scope stack (list head
  is the top of the C++ vector), the parallel `function_names_` stack, the
  list heap, the accumulated output and the control-flow flag, exactly the
  fields of `EvalVisitor`.
* C++ exceptions are `EvalResult.err msg s`: the state is kept because the
  output already written is observable through `interpret`. Recursion is
  fueled; `EvalResult.nofuel` reports fuel exhaustion and never stands in for
  any source behaviour.
* `ValueNode` is declared in the source but never constructed by the parser or
  the evaluator, so it is omitted here.
-/

/-- A single-quote character, used to build diagnostic messages. -/
def sQuote : String := String.singleton (Char.ofNat 39)

/-- Exact model of the `double` values the claims touch: the rational
`n / d` with `d` positive in every constructed value. Arithmetic is exact
(the claims only use values on which IEEE double arithmetic is exact), and
comparisons cross-multiply, so they agree with the rational order. -/
structure Dbl where
  n : ℤ
  d : ℕ
deriving DecidableEq, Repr

/-- Embed an integer. -/
def Dbl.ofInt (i : ℤ) : Dbl := ⟨i, 1⟩

instance (k : Nat) : OfNat Dbl k := ⟨⟨(k : ℤ), 1⟩⟩

/-- `double` addition. -/
def Dbl.add (a b : Dbl) : Dbl := ⟨a.n * b.d + b.n * a.d, a.d * b.d⟩

/-- `double` subtraction. -/
def Dbl.sub (a b : Dbl) : Dbl := ⟨a.n * b.d - b.n * a.d, a.d * b.d⟩

/-- `double` multiplication. -/
def Dbl.mul (a b : Dbl) : Dbl := ⟨a.n * b.n, a.d * b.d⟩

/-- `double` negation. -/
def Dbl.neg (a : Dbl) : Dbl := ⟨-a.n, a.d⟩

/-- `a < b` on doubles (cross-multiplied; denominators are positive). -/
def Dbl.ltB (a b : Dbl) : Bool := a.n * b.d < b.n * a.d

/-- `a <= b` on doubles. -/
def Dbl.leB (a b : Dbl) : Bool := a.n * b.d ≤ b.n * a.d

/-- `a == b` on doubles (value equality, not representation equality). -/
def Dbl.eqB (a b : Dbl) : Bool := a.n * b.d == b.n * a.d

/-- `a < 0`. -/
def Dbl.isNeg (a : Dbl) : Bool := a.n < 0

/-- `a != 0.0`. -/
def Dbl.isNonZero (a : Dbl) : Bool := a.n != 0

/-- `std::floor` (exact on the rational value; `Int.fdiv` is floor
division). -/
def Dbl.floor (a : Dbl) : ℤ := Int.fdiv a.n a.d

/-- `std::floor(a) == a`: the denominator divides the numerator. -/
def Dbl.isInt (a : Dbl) : Bool := a.n % (a.d : ℤ) == 0

/-- `EvalVisitor::ControlFlow`. -/
inductive ControlFlow where
  | kContinue
  | kBreak
  | kReturn
  | kDefault
deriving DecidableEq, Repr

/-- Binary operators of `BinaryOperationNode` that the claims touch
(`TokenType::kAssign, kPlus, kMinus, kMultiply`, the six comparisons, and
`kLogicalAnd` / `kLogicalOr`). -/
inductive BinOp where
  | assign
  | add
  | sub
  | mul
  | lt
  | le
  | gt
  | ge
  | eq
  | ne
  | land
  | lor
deriving DecidableEq, Repr

/-- Unary operators of `UnaryOperationNode` (`kMinus, kPlus, kLogicalNot`). -/
inductive UnOp where
  | neg
  | pos
  | lnot
deriving DecidableEq, Repr

/-- `GlobalFunctionNode::Name`, restricted to the built-ins the claims use. -/
inductive GName where
  | print
  | println
deriving DecidableEq, Repr

/-- AST nodes (`BaseNode` subclasses). `funimpl` carries the shared
`FunctionDefinition` inline together with its identity `fid` (the
`shared_ptr` the parser creates once per function literal). -/
inductive Node where
  | num (v : Dbl)
  | str (s : String)
  | nilLit
  | listLit (elems : List Node)
  | var (name : String)
  | binop (op : BinOp) (lhs rhs : Node)
  | unop (op : UnOp) (arg : Node)
  | ifnode (cond : Node) (thenS elseS : List Node)
  | whilenode (cond : Node) (body : List Node)
  | fornode (name : String) (seq : Node) (body : List Node)
  | breaknode
  | continuenode
  | retnode (v : Node)
  | funimpl (fid : Nat) (argNames : List String) (body : List Node)
  | call (name : String) (args : List Node)
  | ucall (callee : Node) (args : List Node)
  | gcall (g : GName) (args : List Node)

/-- `EvalVisitor::ValueType`
(`std::variant<std::monostate, double, StringPtr, FunctionPtr, ListPtr>`). -/
inductive Value where
  | nil
  | num (v : Dbl)
  | str (s : String)
  | fn (fid : Nat) (argNames : List String) (body : List Node)
  | list (addr : Nat)

/-- One scope: `std::unordered_map<std::string, ValueType>`. -/
abbrev Scope := List (String × Value)

/-- The fields of `EvalVisitor` (plus the heap realising shared lists and the
output accumulated on `out_`). The head of `scopes` is the back (top) of the
C++ vector. -/
structure EvalState where
  result : Value
  scopes : List Scope
  functionNames : List (List String)
  heap : List (List Value)
  output : String
  controlFlow : ControlFlow

/-- The evaluator state at `EvalVisitor` construction: monostate result, empty
stacks, default control flow. -/
def initState : EvalState :=
  { result := .nil, scopes := [], functionNames := [], heap := [],
    output := "", controlFlow := .kDefault }

/-- Outcome of a visit: normal completion, a thrown `std::runtime_error`
carrying the state at the throw, or fuel exhaustion (never a source
behaviour). -/
inductive EvalResult where
  | ok (s : EvalState)
  | err (msg : String) (s : EvalState)
  | nofuel

/-- Membership test of one `unordered_map` scope. -/
def scopeHas (sc : Scope) (name : String) : Bool :=
  sc.any (fun p => p.1 == name)

/-- Lookup in one scope. -/
def scopeGet (sc : Scope) (name : String) : Option Value :=
  (sc.find? (fun p => p.1 == name)).map (fun p => p.2)

/-- `unordered_map` insert-or-assign on one scope. -/
def scopeSet (sc : Scope) (name : String) (v : Value) : Scope :=
  if scopeHas sc name then
    sc.map (fun p => if p.1 == name then (name, v) else p)
  else
    sc ++ [(name, v)]

/-- `EvalVisitor::FindVariable`: walk the scope stack from the top. -/
def findVariable : List Scope → String → Option Value
  | [], _ => none
  | sc :: rest, name =>
    match scopeGet sc name with
    | some v => some v
    | none => findVariable rest name

/-- Update the binding in the nearest (topmost) scope that holds the name;
`none` when no scope holds it. -/
def updateNearest : List Scope → String → Value → Option (List Scope)
  | [], _, _ => none
  | sc :: rest, name, v =>
    if scopeHas sc name then some (scopeSet sc name v :: rest)
    else (updateNearest rest name v).map (fun r => sc :: r)

/-- `EvalVisitor::PushScope`: push an empty scope and an empty name set. -/
def pushScope (s : EvalState) : EvalState :=
  { s with scopes := [] :: s.scopes, functionNames := [] :: s.functionNames }

/-- `EvalVisitor::PopScope`: pop each stack when non-empty. -/
def popScope (s : EvalState) : EvalState :=
  { s with scopes := s.scopes.tail, functionNames := s.functionNames.tail }

/-- Whether the value holds the `FunctionPtr` alternative
(`EvalVisitor::HoldsFunction`). -/
def Value.isFn : Value → Bool
  | .fn _ _ _ => true
  | _ => false

/-- Insert a name into the top `function_names_` set. The source calls
`function_names_.back()`; the stack is non-empty on every reachable call, the
empty case is defensive. -/
def insertTopName (name : String) : List (List String) → List (List String)
  | [] => [[name]]
  | fns :: rest => (if name ∈ fns then fns else name :: fns) :: rest

/-- `EvalVisitor::SetVariable`: push a scope when the stack is empty, update
the nearest binding when one exists, otherwise create the binding in the top
scope; when the value is a function, also record the name in the top
`function_names_` set (the source tests the moved-from variant, which still
holds the `FunctionPtr` alternative, so the test fires for functions). -/
def setVariable (name : String) (v : Value) (s : EvalState) : EvalState :=
  let s := if s.scopes.isEmpty then pushScope s else s
  let s :=
    match updateNearest s.scopes name v with
    | some scopes2 => { s with scopes := scopes2 }
    | none =>
      match s.scopes with
      | [] => s
      | top :: rest => { s with scopes := scopeSet top name v :: rest }
  if v.isFn then { s with functionNames := insertTopName name s.functionNames }
  else s

/-- `EvalVisitor::IsFunctionName`: search every `function_names_` set. -/
def isFunctionName (fns : List (List String)) (name : String) : Bool :=
  fns.any (fun scope => name ∈ scope)

/-- `EvalVisitor::GetBool`: monostate and functions are false, a number is
compared with zero, strings and lists are tested for emptiness (via the
heap for lists). -/
def getBool (heap : List (List Value)) : Value → Bool
  | .nil => false
  | .num v => v.isNonZero
  | .str s => !s.isEmpty
  | .fn _ _ _ => false
  | .list a => !(heap.getD a []).isEmpty

/-- Booleans cast to `double` (`static_cast<double>(bool)`). -/
def boolToDbl (b : Bool) : Dbl := if b then 1 else 0

/-- Byte-wise lexicographic `operator<` of `std::string`, spelled out on the
character lists (all strings involved are ASCII). -/
def charListLt : List Char → List Char → Bool
  | _, [] => false
  | [], _ :: _ => true
  | a :: as, b :: bs =>
    if a < b then true else if b < a then false else charListLt as bs

/-- `std::string` comparison dispatch used by the six comparison helpers. -/
def strCmp : BinOp → String → String → Bool
  | .lt, a, b => charListLt a.data b.data
  | .le, a, b => !charListLt b.data a.data
  | .gt, a, b => charListLt b.data a.data
  | .ge, a, b => !charListLt a.data b.data
  | .eq, a, b => a == b
  | .ne, a, b => a != b
  | _, _, _ => false

/-- The comparison functors applied to `std::monostate`: all monostate values
are equal, so ordering is reflexive-total. -/
def monoCmp : BinOp → Bool
  | .lt => false
  | .le => true
  | .gt => false
  | .ge => true
  | .eq => true
  | .ne => false
  | _ => false

/-- The comparison functors applied to two doubles. -/
def dblCmp : BinOp → Dbl → Dbl → Bool
  | .lt, a, b => a.ltB b
  | .le, a, b => a.leB b
  | .gt, a, b => b.ltB a
  | .ge, a, b => b.leB a
  | .eq, a, b => a.eqB b
  | .ne, a, b => !a.eqB b
  | _, _, _ => false

/-- The comparison functors applied to two pointers (`std::less` and friends
on `shared_ptr`), modelled on the addresses. -/
def natCmp : BinOp → Nat → Nat → Bool
  | .lt, a, b => a < b
  | .le, a, b => a ≤ b
  | .gt, a, b => a > b
  | .ge, a, b => a ≥ b
  | .eq, a, b => a == b
  | .ne, a, b => a != b
  | _, _, _ => false

/-- `EvalVisitor::CalculateLess/Greater/Equal/...`: each helper first
special-cases a pair of strings (content comparison), then falls to the
generic `CalculateCompare`, which yields the functor result for operands of
the same variant alternative and `0.0` for differing alternatives. Two
strings never reach the generic branch (the callers intercept them); the
model returns `0` there to stay total. -/
def calcCompareOp (op : BinOp) (l r : Value) : Value :=
  match l, r with
  | .str a, .str b => .num (boolToDbl (strCmp op a b))
  | .nil, .nil => .num (boolToDbl (monoCmp op))
  | .num a, .num b => .num (boolToDbl (dblCmp op a b))
  | .fn f1 _ _, .fn f2 _ _ => .num (boolToDbl (natCmp op f1 f2))
  | .list a, .list b => .num (boolToDbl (natCmp op a b))
  | _, _ => .num 0

/-- `EvalVisitor::CalculateAdd`: numbers add, strings concatenate, lists
concatenate into a freshly allocated list; any other pair throws. -/
def calcAdd (l r : Value) (s : EvalState) : EvalResult :=
  match l, r with
  | .num a, .num b => .ok { s with result := .num (a.add b) }
  | .str a, .str b => .ok { s with result := .str (a ++ b) }
  | .list a, .list b =>
    let elems := (s.heap.getD a []) ++ (s.heap.getD b [])
    .ok { s with heap := s.heap ++ [elems], result := .list s.heap.length }
  | _, _ => .err "Incorrect operands in binary expression: A + B" s

/-- `EvalVisitor::CalculateSub`: string minus string removes the suffix when
present; numbers subtract; otherwise throw. -/
def calcSub (l r : Value) (s : EvalState) : EvalResult :=
  match l, r with
  | .str a, .str b =>
    let res := if b.data.isSuffixOf a.data then a.dropRight b.length else a
    .ok { s with result := .str res }
  | .num a, .num b => .ok { s with result := .num (a.sub b) }
  | _, _ => .err "Incorrect operands in binary expression: A - B" s

/-- The repeated-list buffer of `EvalVisitor::CalculateMult`: the source
computes `new_size = static_cast<std::size_t>(rhs) * lhs.size()` (the factor
is truncated **before** multiplying) and fills index `i` with
`lhs[i % lhs.size()]`. -/
def listRepeat (elems : List Value) (k : Nat) : List Value :=
  (List.range (k * elems.length)).map (fun i => elems.getD (i % elems.length) .nil)

/-- The repeated-string buffer: here the source computes
`new_size = rhs * double(lhs.size())` (truncated **after** multiplying). -/
def strRepeat (chars : List Char) (n : Dbl) : List Char :=
  (List.range (Int.toNat (n.mul (.ofInt chars.length)).floor)).map
    (fun i => chars.getD (i % chars.length) (Char.ofNat 0))

/-- `EvalVisitor::CalculateMult`: number times number; list times
non-negative number repeats by `listRepeat` into a new allocation; string
times non-negative number repeats characters; anything else throws. -/
def calcMult (l r : Value) (s : EvalState) : EvalResult :=
  match l, r with
  | .num a, .num b => .ok { s with result := .num (a.mul b) }
  | .list a, .num n =>
    if n.isNeg then .err "Can not multiply a list by a negative number" s
    else
      let buffer := listRepeat (s.heap.getD a []) (Int.toNat n.floor)
      .ok { s with heap := s.heap ++ [buffer], result := .list s.heap.length }
  | .str a, .num n =>
    if n.isNeg then .err "Can not multiply a string by a negative number" s
    else .ok { s with result := .str (String.mk (strRepeat a.data n)) }
  | _, _ => .err "Incorrect operands in binary expression: A * B" s

/-- Fixed-width zero padding for the fractional digits of `%f`. -/
def padSix (s : String) : String :=
  String.mk (List.replicate (6 - s.length) (Char.ofNat 48)) ++ s

/-- Number formatting of `EvalVisitor::ToString`: an integral value prints as
`std::to_string(int64_t)`, otherwise `std::to_string(double)` prints with six
fixed decimals. The non-integral branch rounds in decimal where the printf of
the binary double may differ in the last digit; no claim prints a
non-integral number. -/
def numToString (q : Dbl) : String :=
  if q.isInt then toString q.floor
  else
    let scaled : ℤ := Int.fdiv (2 * |q.n| * 1000000 + q.d) (2 * q.d)
    let ip := scaled / 1000000
    let fp := scaled % 1000000
    (if q.isNeg then "-" else "") ++ toString ip ++ "." ++ padSix (toString fp)

/-- `EvalVisitor::ToString`: canonical stringification. Fuel bounds the
recursion through the heap (a cyclic list overflows the C++ stack; no claim
builds one). -/
def toStringV : Nat → List (List Value) → Value → String
  | 0, _, _ => ""
  | fuel + 1, heap, v =>
    match v with
    | .nil => "nil"
    | .num q => numToString q
    | .str s => "\"" ++ s ++ "\""
    | .fn _ _ _ => "function"
    | .list a =>
      "[" ++ String.intercalate ", " ((heap.getD a []).map (toStringV fuel heap)) ++ "]"

/-- `EvalVisitor::AssignToLeftOperand`: the target must be a `VariableNode`;
a function-valued result first registers the name in the top
`function_names_` set (creating the set when the stack is empty); then
`SetVariable` stores the result register. -/
def assignToLhs (lhsNode : Node) (s : EvalState) : EvalResult :=
  match lhsNode with
  | .var name =>
    let s :=
      if s.result.isFn then
        let fns := if s.functionNames.isEmpty then [[]] else s.functionNames
        { s with functionNames := insertTopName name fns }
      else s
    .ok (setVariable name s.result s)
  | _ => .err "The left operand of the assignment must be a variable" s

mutual

/-- `EvalVisitor::Visit` dispatch, one fuel unit per visit. Mirrors each
`Visit(...)` overload of the source; the branches are commented with the
member they port. -/
def evalNode : Nat → Node → EvalState → EvalResult
  | 0, _, _ => .nofuel
  | fuel + 1, node, s =>
    match node with
    | .num v => .ok { s with result := .num v }
    | .str v => .ok { s with result := .str v }
    | .nilLit => .ok { s with result := .nil }
    | .var name =>
      match findVariable s.scopes name with
      | some v => .ok { s with result := v }
      | none => .err ("Variable " ++ sQuote ++ name ++ sQuote ++ " not found") s
    | .listLit elems => evalListLiteral fuel elems [] s
    | .binop op lhs rhs =>
      match op with
      | .assign =>
        match evalNode fuel rhs s with
        | .ok s1 => assignToLhs lhs s1
        | r => r
      | _ =>
        match evalNode fuel lhs s with
        | .ok s1 =>
          match evalNode fuel rhs s1 with
          | .ok s2 =>
            let l := s1.result
            let r := s2.result
            match op with
            | .mul => calcMult l r s2
            | .sub => calcSub l r s2
            | .add => calcAdd l r s2
            | .eq => .ok { s2 with result := calcCompareOp .eq l r }
            | .ne => .ok { s2 with result := calcCompareOp .ne l r }
            | .lt => .ok { s2 with result := calcCompareOp .lt l r }
            | .le => .ok { s2 with result := calcCompareOp .le l r }
            | .gt => .ok { s2 with result := calcCompareOp .gt l r }
            | .ge => .ok { s2 with result := calcCompareOp .ge l r }
            | _ => .ok s2
          | r => r
        | r => r
    | .unop op arg =>
      match evalNode fuel arg s with
      | .ok s1 =>
        match op with
        | .neg =>
          match evalNode fuel arg s1 with
          | .ok s2 =>
            match s2.result with
            | .num v => .ok { s2 with result := .num v.neg }
            | _ => .err "Unary minus can be applied only to the number" s2
          | r => r
        | .pos =>
          match evalNode fuel arg s1 with
          | .ok s2 =>
            match s2.result with
            | .num v => .ok { s2 with result := .num v }
            | _ => .err "Unary plus can be applied only to the number" s2
          | r => r
        | .lnot =>
          match evalNode fuel arg s1 with
          | .ok s2 =>
            .ok { s2 with result := .num (boolToDbl (!getBool s2.heap s2.result)) }
          | r => r
      | r => r
    | .ifnode cond thenS elseS =>
      match evalNode fuel cond s with
      | .ok s1 =>
        let b := getBool s1.heap s1.result
        let s2 := pushScope s1
        match executeStatements fuel (if b then thenS else elseS) s2 with
        | .ok s3 => .ok (popScope s3)
        | r => r
      | r => r
    | .whilenode cond body => whileLoop fuel cond body s
    | .fornode name seq body =>
      match evalNode fuel seq s with
      | .ok s1 =>
        match s1.result with
        | .list addr => forListLoop fuel name (s1.heap.getD addr []) body s1
        | .str str => forStringLoop fuel name str.data body s1
        | _ => .err "Sequence must be iterable" s1
      | r => r
    | .breaknode => .ok { s with controlFlow := .kBreak }
    | .continuenode => .ok { s with controlFlow := .kContinue }
    | .retnode v =>
      match evalNode fuel v s with
      | .ok s1 => .ok { s1 with controlFlow := .kReturn }
      | r => r
    | .funimpl fid argNames body => .ok { s with result := .fn fid argNames body }
    | .call name args =>
      if !isFunctionName s.functionNames name then
        .err ("Function " ++ name ++ " not found") s
      else
        match findVariable s.scopes name with
        | none => .err ("Function " ++ sQuote ++ name ++ sQuote ++ " not found") s
        | some v =>
          match v with
          | .fn _ argNames body =>
            let s1 := pushScope s
            if argNames.length ≠ args.length then
              .err ("Function " ++ sQuote ++ name ++ sQuote ++ " with "
                    ++ toString args.length ++ " arguments not found") s1
            else
              match bindArgs fuel argNames args s1 with
              | .ok s2 =>
                match runFnBody fuel body s2 with
                | .ok s3 =>
                  let s4 := popScope s3
                  let s5 :=
                    if s4.controlFlow ≠ .kReturn then { s4 with result := .nil } else s4
                  .ok { s5 with controlFlow := .kDefault }
                | r => r
              | r => r
          | _ => .err "bad variant access" s
    | .ucall callee args =>
      match evalNode fuel callee s with
      | .ok s1 =>
        match s1.result with
        | .fn _ argNames body =>
          let s2 := pushScope s1
          match bindArgs fuel argNames args s2 with
          | .ok s3 =>
            match runFnBody fuel body s3 with
            | .ok s4 =>
              let s5 := popScope s4
              if s5.controlFlow = .kReturn then .ok { s5 with controlFlow := .kDefault }
              else .ok { s5 with result := .nil }
            | r => r
          | r => r
        | _ => .err "() operator can be applied only to the function" s1
      | r => r
    | .gcall g args =>
      match args with
      | [a] =>
        match evalNode fuel a s with
        | .ok s1 =>
          let line :=
            match s1.result with
            | .str st => st
            | v => toStringV fuel s1.heap v
          match g with
          | .print => .ok { s1 with output := s1.output ++ line }
          | .println => .ok { s1 with output := s1.output ++ line ++ "\n" }
        | r => r
      | _ => .err "print() requires one argument" s

/-- `EvalVisitor::Visit(ListLiteralNode&)`: evaluate the elements left to
right, collecting each result, then allocate the `List`. -/
def evalListLiteral : Nat → List Node → List Value → EvalState → EvalResult
  | 0, _, _, _ => .nofuel
  | _ + 1, [], acc, s =>
    .ok { s with heap := s.heap ++ [acc], result := .list s.heap.length }
  | fuel + 1, e :: rest, acc, s =>
    match evalNode fuel e s with
    | .ok s1 => evalListLiteral fuel rest (acc ++ [s1.result]) s1
    | r => r

/-- `EvalVisitor::ExecuteStatements` and the identical inline loops of the
`while`/`for` bodies: run statements until one leaves a non-default
control-flow flag. -/
def executeStatements : Nat → List Node → EvalState → EvalResult
  | 0, _, _ => .nofuel
  | _ + 1, [], s => .ok s
  | fuel + 1, st :: rest, s =>
    match evalNode fuel st s with
    | .ok s1 =>
      if s1.controlFlow ≠ .kDefault then .ok s1
      else executeStatements fuel rest s1
    | r => r

/-- The function-body loops of `Visit(FunctionCallNode&)` and
`Visit(UnnamedFunctionCallNode&)`: run statements, stopping only when the
flag is `kReturn` (a stray `kBreak`/`kContinue` does not stop the body). -/
def runFnBody : Nat → List Node → EvalState → EvalResult
  | 0, _, _ => .nofuel
  | _ + 1, [], s => .ok s
  | fuel + 1, st :: rest, s =>
    match evalNode fuel st s with
    | .ok s1 =>
      if s1.controlFlow = .kReturn then .ok s1
      else runFnBody fuel rest s1
    | r => r

/-- The argument-binding loop shared by both call visits: evaluate the i-th
argument expression (inside the already-pushed scope) and `SetVariable` it
under the i-th parameter name. The source indexes `node.args()[i]` for each
parameter; an argument list shorter than the parameter list is an
out-of-bounds read (possible only for unnamed calls, which skip the arity
check), reported here as an error. -/
def bindArgs : Nat → List String → List Node → EvalState → EvalResult
  | 0, _, _, _ => .nofuel
  | _ + 1, [], _, s => .ok s
  | fuel + 1, p :: ps, args, s =>
    match args with
    | [] => .err "argument list shorter than parameter list: out-of-bounds read in the source" s
    | a :: rest =>
      match evalNode fuel a s with
      | .ok s1 => bindArgs fuel ps rest (setVariable p s1.result s1)
      | r => r

/-- `EvalVisitor::Visit(WhileNode&)`, ported line by line: evaluate the
condition, exit when false; push a scope, run the body until a non-default
flag, pop; when the flag is default, iterate again; otherwise reset every
flag except `kReturn` to default and **still iterate again** (the source has
no `break` after the reset, so neither `break` nor `return` leaves the
loop). -/
def whileLoop : Nat → Node → List Node → EvalState → EvalResult
  | 0, _, _, _ => .nofuel
  | fuel + 1, cond, body, s =>
    match evalNode fuel cond s with
    | .ok s1 =>
      if !getBool s1.heap s1.result then .ok s1
      else
        match executeStatements fuel body (pushScope s1) with
        | .ok s3 =>
          let s4 := popScope s3
          if s4.controlFlow = .kDefault then whileLoop fuel cond body s4
          else
            whileLoop fuel cond body
              (if s4.controlFlow ≠ .kReturn then { s4 with controlFlow := .kDefault } else s4)
        | r => r
    | r => r

/-- The list branch of `EvalVisitor::Visit(ForNode&)`: per element push a
scope, bind the loop name, run the body until a non-default flag, pop; a
default flag continues, any other flag except `kReturn` is reset to default
and iteration continues with the next element either way (as in `while`,
nothing exits the element loop). -/
def forListLoop : Nat → String → List Value → List Node → EvalState → EvalResult
  | 0, _, _, _, _ => .nofuel
  | _ + 1, _, [], _, s => .ok s
  | fuel + 1, name, e :: rest, body, s =>
    match executeStatements fuel body (setVariable name e (pushScope s)) with
    | .ok s3 =>
      let s4 := popScope s3
      if s4.controlFlow = .kDefault then forListLoop fuel name rest body s4
      else
        forListLoop fuel name rest body
          (if s4.controlFlow ≠ .kReturn then { s4 with controlFlow := .kDefault } else s4)
    | r => r

/-- The statement loop of the string branch of `Visit(ForNode&)`: after each
statement, `kBreak` resets the flag and stops the statement loop, `kContinue`
resets the flag and moves to the **next statement**, `kReturn` exits the
whole visit immediately (skipping the `PopScope`); the caller distinguishes
the return exit by the flag left as `kReturn`. -/
def forStringBody : Nat → List Node → EvalState → EvalResult
  | 0, _, _ => .nofuel
  | _ + 1, [], s => .ok s
  | fuel + 1, st :: rest, s =>
    match evalNode fuel st s with
    | .ok s1 =>
      if s1.controlFlow = .kBreak then .ok { s1 with controlFlow := .kDefault }
      else if s1.controlFlow = .kContinue then
        forStringBody fuel rest { s1 with controlFlow := .kDefault }
      else if s1.controlFlow = .kReturn then .ok s1
      else forStringBody fuel rest s1
    | r => r

/-- The string branch of `Visit(ForNode&)`: per character push a scope, bind
the loop name to a one-character string, run `forStringBody`; when it ends
with `kReturn` the visit returns **without popping the scope**, otherwise pop
and continue with the next character (also after a `break`). -/
def forStringLoop : Nat → String → List Char → List Node → EvalState → EvalResult
  | 0, _, _, _, _ => .nofuel
  | _ + 1, _, [], _, s => .ok s
  | fuel + 1, name, c :: rest, body, s =>
    match forStringBody fuel body
        (setVariable name (.str (String.singleton c)) (pushScope s)) with
    | .ok s2 =>
      if s2.controlFlow = .kReturn then .ok s2
      else forStringLoop fuel name rest body (popScope s2)
    | r => r

end

/-- `EvalVisitor::Visit(RootNode&)`: run every top-level statement in order,
with no check of the control-flow flag between them. -/
def evalRoot : Nat → List Node → EvalState → EvalResult
  | _, [], s => .ok s
  | fuel, st :: rest, s =>
    match evalNode fuel st s with
    | .ok s1 => evalRoot fuel rest s1
    | r => r

/-- Run a whole program from the evaluator construction state. -/
def runProgram (fuel : Nat) (stmts : List Node) : EvalResult :=
  evalRoot fuel stmts initState

/-- The `interpret` entry point (`src/lib/interpreter/interpreter.cpp`): parse
and evaluate inside one `try`; any exception is appended to the output with a
newline and `false` is returned, otherwise `true`. The parser is abstracted
as its outcome (`Except` value); `none` reports fuel exhaustion of the
model. -/
def interpret (parsed : Except String (List Node)) (fuel : Nat) :
    Option (Bool × String) :=
  match parsed with
  | .error msg => some (false, msg ++ "\n")
  | .ok stmts =>
    match evalRoot fuel stmts initState with
    | .ok s => some (true, s.output)
    | .err msg s => some (false, s.output ++ msg ++ "\n")
    | .nofuel => none

/-- The variable bound to a name in the final state of a successful run. -/
def EvalResult.lookupVar : EvalResult → String → Option Value
  | .ok s, name => findVariable s.scopes name
  | _, _ => none

/-- The double payload of a `Value.num`. -/
def Value.asNum : Value → Option Dbl
  | .num q => some q
  | _ => none

/-- The number bound to a name in the final state of a successful run. -/
def EvalResult.lookupNum (r : EvalResult) (name : String) : Option Dbl :=
  (r.lookupVar name).bind Value.asNum

/-- The scope-stack depth at the end of a successful run. -/
def EvalResult.depth : EvalResult → Option Nat
  | .ok s => some s.scopes.length
  | _ => none

/-- The control-flow flag at the end of a successful run. -/
def EvalResult.flag : EvalResult → Option ControlFlow
  | .ok s => some s.controlFlow
  | _ => none

/-- The result register at the end of a successful run. -/
def EvalResult.resultVal : EvalResult → Option Value
  | .ok s => some s.result
  | _ => none

/-- The number in the result register at the end of a successful run. -/
def EvalResult.resultNum (r : EvalResult) : Option Dbl :=
  r.resultVal.bind Value.asNum

/-- The heap cell at an address in the final state of a successful run. -/
def EvalResult.heapAt : EvalResult → Nat → Option (List Value)
  | .ok s, a => (s.heap).get? a
  | _, _ => none

/-!
Claim programs and states.

Each definition below is the AST of a concrete test program (what the parser
produces for the quoted source) or a concrete evaluator state, used by exactly
one claim.
-/

/-- Program `x = 0  while x < 2  x = x + 1  break  end while`. -/
def c2prog : List Node :=
  [ .binop .assign (.var "x") (.num 0),
    .whilenode (.binop .lt (.var "x") (.num 2))
      [ .binop .assign (.var "x") (.binop .add (.var "x") (.num 1)),
        .breaknode ] ]

/-- Program `for c in "ab"  return 0  end for`. -/
def c3prog : List Node := [ .fornode "c" (.str "ab") [ .retnode (.num 0) ] ]

/-- A state in which `f` is bound to a parameterless function whose body is a
single `break` statement, and is registered as a function name. -/
def c4state : EvalState :=
  { result := .nil, scopes := [[("f", .fn 0 [] [.breaknode])]],
    functionNames := [["f"]], heap := [], output := "", controlFlow := .kDefault }

/-- Program `x = 0  y = -(x = x + 1)` (the parenthesised assignment is the
operand of the unary minus). -/
def c5prog : List Node :=
  [ .binop .assign (.var "x") (.num 0),
    .binop .assign (.var "y")
      (.unop .neg (.binop .assign (.var "x") (.binop .add (.var "x") (.num 1)))) ]

/-- Program `a = 10  f = function(a, b) return b end function  r = f(5, a)`:
the caller binds `a`, the callee's first parameter shares that name. -/
def c6progA : List Node :=
  [ .binop .assign (.var "a") (.num 10),
    .binop .assign (.var "f") (.funimpl 0 ["a", "b"] [.retnode (.var "b")]),
    .binop .assign (.var "r") (.call "f" [.num 5, .var "a"]) ]

/-- Program `f = function(a, b) return b end function  r = f(5, a)`: the
caller never binds `a`; the second argument mentions it anyway. -/
def c6progB : List Node :=
  [ .binop .assign (.var "f") (.funimpl 0 ["a", "b"] [.retnode (.var "b")]),
    .binop .assign (.var "r") (.call "f" [.num 5, .var "a"]) ]

/-- Program `l1 = [1]  l2 = [2]  r = (l1 < l2) + (l2 < l1)`: two distinct
one-element lists compared both ways. -/
def c7prog : List Node :=
  [ .binop .assign (.var "l1") (.listLit [.num 1]),
    .binop .assign (.var "l2") (.listLit [.num 2]),
    .binop .assign (.var "r")
      (.binop .add (.binop .lt (.var "l1") (.var "l2"))
                   (.binop .lt (.var "l2") (.var "l1"))) ]

/-- A state whose heap holds one four-element list at address `0`. -/
def c8heapState : EvalState :=
  { initState with heap := [[.num 1, .num 2, .num 3, .num 4]] }

/-- A state whose heap holds one two-element list at address `0`. -/
def c8wState : EvalState := { initState with heap := [[.num 1, .num 2]] }

/-- Program `print(1)` followed by the bare expression `x` with `x` unbound:
output is written, then evaluation throws. -/
def c9prog : List Node := [ .gcall .print [.num 1], .var "x" ]

/-- The state at the throw when running `c9prog`: `1` already printed. -/
def c9errState : EvalState := { initState with result := .num 1, output := "1" }

/-!
The claims.
-/

/-- Claim C1, refuted (code bug). The claim says `and`/`or` leave `1.0`/`0.0`
per the boolean coercion and never a raw operand value. In the source,
`EvalVisitor::Visit(BinaryOperationNode&)` evaluates both operands but has no
`case` for `kLogicalAnd`/`kLogicalOr`, so the result register keeps the raw
value of the right operand: `0 and 5` yields `5.0` (the coercion of the
conjunction is false, so the claim demands `0.0`), and `"x" or ""` yields the
string `""` (not a number at all), even though `GetBool` maps `0` to false
and `"x"` to true. -/
theorem C1_logical_and_or_keep_raw_rhs :
    (evalNode 10 (.binop .land (.num 0) (.num 5)) initState).resultNum = some 5
    ∧ (evalNode 10 (.binop .lor (.str "x") (.str "")) initState).resultVal
        = some (Value.str "")
    ∧ getBool [] (Value.num 0) = false
    ∧ getBool [] (Value.str "x") = true
    ∧ some (5 : Dbl) ≠ some (0 : Dbl)
    ∧ some (5 : Dbl) ≠ some (1 : Dbl) :=
  ⟨rfl, rfl, rfl, rfl, by decide, by decide⟩

/-- Claim C2, refuted (code bug). The claim says a `break` terminates the
`while` loop: in program `c2prog` the loop body would run once, leaving
`x = 1`. In the source the reset `control_flow_ = kDefault` is not followed
by any `break` out of the `while (true)`, so after a `break` the condition is
re-evaluated and iteration continues: the run ends with `x = 2` (the loop
exited only because `2 < 2` is false), with the flag back at default. -/
theorem C2_break_does_not_terminate_while :
    (runProgram 100 c2prog).lookupNum "x" = some 2
    ∧ (runProgram 100 c2prog).flag = some ControlFlow.kDefault
    ∧ some (2 : Dbl) ≠ some (1 : Dbl) :=
  ⟨by decide, by decide, by decide⟩

/-- Claim C3, refuted (code bug). The claim says every scope push is paired
with a pop on every exit path, so a completed top-level run restores the
initial depth. In the string branch of `EvalVisitor::Visit(ForNode&)`, a
`kReturn` flag makes the visit `return` before its `PopScope()`: running
`for c in "ab" return 0 end for` from depth `0` completes with depth `1` and
the flag still `kReturn`. -/
theorem C3_return_in_string_for_leaks_scope :
    (runProgram 50 c3prog).depth = some (initState.scopes.length + 1)
    ∧ (runProgram 50 c3prog).flag = some ControlFlow.kReturn :=
  ⟨by decide, by decide⟩

/-- Claim C4, counterexample. Calling the parameterless function literal with
body `break` through the unnamed-call path completes normally but leaves the
control-flow flag `kBreak`, not `kDefault`:
`Visit(UnnamedFunctionCallNode&)` resets the flag only when it is
`kReturn`. -/
theorem C4_counterexample_unnamed_call_break_leaks :
    (evalNode 30 (.ucall (.funimpl 0 [] [.breaknode]) []) initState).flag
      = some ControlFlow.kBreak
    ∧ some ControlFlow.kBreak ≠ some ControlFlow.kDefault :=
  ⟨by decide, by decide⟩

/-- Claim C4, amended. A **named** function call that completes without a
runtime error always leaves the control-flow flag `kDefault` (the source
resets it unconditionally), whatever the body set; an **unnamed** function
call only guarantees that the flag is not `kReturn` afterwards — a `kBreak`
or `kContinue` set by the body survives the call. -/
theorem C4_call_resets_control_flow :
    (∀ (fuel : Nat) (name : String) (args : List Node) (s s2 : EvalState),
       evalNode fuel (.call name args) s = .ok s2 → s2.controlFlow = .kDefault)
    ∧ (∀ (fuel : Nat) (callee : Node) (args : List Node) (s s2 : EvalState),
       evalNode fuel (.ucall callee args) s = .ok s2 → s2.controlFlow ≠ .kReturn) := by
  constructor
  · intro fuel name args s s2 h
    match fuel with
    | 0 => exact EvalResult.noConfusion h
    | f + 1 =>
      simp only [evalNode] at h
      repeat' split at h
      all_goals first
        | (injection h with h2; subst h2; rfl)
        | exact EvalResult.noConfusion h
        | simp_all
  · intro fuel callee args s s2 h
    match fuel with
    | 0 => exact EvalResult.noConfusion h
    | f + 1 =>
      simp only [evalNode] at h
      repeat' split at h
      all_goals first
        | (injection h with h2; subst h2; intro hc; exact ControlFlow.noConfusion hc)
        | (injection h with h2; subst h2; assumption)
        | exact EvalResult.noConfusion h
        | simp_all

/-- Claim C4, witness. Calling `f` (bound in `c4state` to a function whose
body is a lone `break`) by name completes in the very same state, and the
amended theorem yields the default flag. -/
theorem C4_call_resets_control_flow_witness :
    evalNode 30 (.call "f" []) c4state = .ok c4state
    ∧ c4state.controlFlow = ControlFlow.kDefault :=
  ⟨rfl, C4_call_resets_control_flow.1 30 "f" [] c4state c4state rfl⟩

/-- Claim C5, refuted (code bug). The claim says a unary operation evaluates
its operand exactly once. `Visit(UnaryOperationNode&)` evaluates the operand,
then dispatches to `CalculateUnaryMinus/Plus/LogicalNot`, each of which
evaluates the operand **again**: in `c5prog` the operand `x = x + 1` of the
unary minus runs twice, ending with `x = 2` and `y = -2` (one evaluation
would give `x = 1`, `y = -1`). -/
theorem C5_unary_operand_evaluated_twice :
    (runProgram 100 c5prog).lookupNum "x" = some 2
    ∧ (runProgram 100 c5prog).lookupNum "y" = some (Dbl.ofInt (-2))
    ∧ some (2 : Dbl) ≠ some (1 : Dbl) :=
  ⟨by decide, by decide, by decide⟩

/-- Claim C6, counterexample. In `c6progB` the caller has no binding for `a`
at all, so under the claim (arguments see only the caller's context) the call
`f(5, a)` would throw `Variable not found`. Instead the run completes:
evaluating the second argument `a` finds the binding `a = 5` that binding the
first parameter just created in the callee's scope, so `r = 5`; the final
state has no `a` anywhere (the callee scope was popped), showing the `a` that
was read lived in the callee's scope. -/
theorem C6_counterexample_later_argument_sees_parameter :
    (runProgram 100 c6progB).lookupNum "r" = some 5
    ∧ (runProgram 100 c6progB).lookupVar "a" = none
    ∧ (runProgram 100 c6progB).flag = some ControlFlow.kDefault :=
  ⟨by decide, rfl, by decide⟩

/-- Claim C6, amended. Arguments are evaluated **after** the callee scope is
pushed, and each parameter is bound with `SetVariable`, which updates the
nearest existing binding of that name (possibly the caller's variable) and
otherwise creates it in the new scope. Hence an earlier parameter binding of
the same call is visible while evaluating a later argument, and a caller
variable sharing a parameter name is overwritten: in `c6progA` (caller
`a = 10`), `f(5, a)` returns `5` and leaves the caller's `a` changed to `5`,
where evaluation in the caller's context would give `10`. -/
theorem C6_amended_parameter_binding_visibility :
    (runProgram 100 c6progA).lookupNum "r" = some 5
    ∧ (runProgram 100 c6progA).lookupNum "a" = some 5
    ∧ some (5 : Dbl) ≠ some (10 : Dbl) :=
  ⟨by decide, by decide, by decide⟩

/-- Claim C7, counterexample. `c7prog` compares two distinct lists of equal
length (both hold one element, as the heap shows) with `<` both ways and adds
the results: size-based comparison would give `0.0 + 0.0 = 0.0`, but the run
yields `r = 1.0`, because exactly one direction of the pointer order holds
between two distinct list objects. -/
theorem C7_counterexample_equal_sized_lists :
    (runProgram 100 c7prog).lookupNum "r" = some 1
    ∧ ((runProgram 100 c7prog).heapAt 0).map List.length = some 1
    ∧ ((runProgram 100 c7prog).heapAt 1).map List.length = some 1
    ∧ some (1 : Dbl) ≠ some (0 : Dbl) :=
  ⟨by decide, by decide, by decide, by decide⟩

/-- Claim C7, amended. The comparison operators between two List values apply
`std::less` and friends to the `shared_ptr`s, i.e. to the list object
identities (modelled as heap addresses), not to the element counts: the
result is fully determined by the two addresses (the statement does not
mention the heap at all), `l < l` on the same object is `0.0` and `l <= l` is
`1.0` regardless of the elements, and for two distinct objects exactly one
direction of `<` yields `1.0` even when the sizes are equal. -/
theorem C7_amended_pointer_order :
    (∀ a b : Nat, calcCompareOp .lt (.list a) (.list b) = .num (if a < b then 1 else 0))
    ∧ (∀ a b : Nat, calcCompareOp .le (.list a) (.list b) = .num (if a ≤ b then 1 else 0))
    ∧ (∀ a b : Nat, calcCompareOp .gt (.list a) (.list b) = .num (if b < a then 1 else 0))
    ∧ (∀ a b : Nat, calcCompareOp .ge (.list a) (.list b) = .num (if b ≤ a then 1 else 0))
    ∧ (∀ a b : Nat, a ≠ b →
        (calcCompareOp .lt (.list a) (.list b) = .num 1
          ∧ calcCompareOp .lt (.list b) (.list a) = .num 0)
        ∨ (calcCompareOp .lt (.list a) (.list b) = .num 0
          ∧ calcCompareOp .lt (.list b) (.list a) = .num 1)) := by
  have hlt : ∀ a b : Nat, calcCompareOp .lt (.list a) (.list b)
      = .num (if a < b then 1 else 0) := by
    intro a b
    by_cases hab : a < b <;> simp [calcCompareOp, natCmp, boolToDbl, hab]
  refine ⟨hlt, ?_, ?_, ?_, ?_⟩
  · intro a b; by_cases hab : a ≤ b <;> simp [calcCompareOp, natCmp, boolToDbl, hab]
  · intro a b; by_cases hab : b < a <;> simp [calcCompareOp, natCmp, boolToDbl, hab]
  · intro a b; by_cases hab : b ≤ a <;> simp [calcCompareOp, natCmp, boolToDbl, hab]
  · intro a b hne
    rcases Nat.lt_or_ge a b with hab | hab
    · left
      constructor
      · rw [hlt a b]; simp [hab]
      · rw [hlt b a]; simp [Nat.not_lt.mpr (Nat.le_of_lt hab)]
    · have hba : b < a := Nat.lt_of_le_of_ne hab (fun hh => hne hh.symm)
      right
      constructor
      · rw [hlt a b]; simp [Nat.not_lt.mpr (Nat.le_of_lt hba)]
      · rw [hlt b a]; simp [hba]

/-- Claim C7, witness: the disjunctive part of the amended theorem applied to
the distinct addresses `0` and `1`. -/
theorem C7_amended_pointer_order_witness :
    (calcCompareOp .lt (.list 0) (.list 1) = .num 1
      ∧ calcCompareOp .lt (.list 1) (.list 0) = .num 0)
    ∨ (calcCompareOp .lt (.list 0) (.list 1) = .num 0
      ∧ calcCompareOp .lt (.list 1) (.list 0) = .num 1) :=
  C7_amended_pointer_order.2.2.2.2 0 1 (by decide)

/-- Claim C8, counterexample. Multiplying the four-element list at address
`0` by `0.5` produces the empty list (the source truncates the factor to
`size_t` **before** multiplying by the length, giving `0 * 4 = 0` elements),
while the claim demands `⌊0.5 * 4⌋ = 2` elements. -/
theorem C8_counterexample_fractional_multiplier :
    calcMult (.list 0) (.num ⟨1, 2⟩) c8heapState
      = .ok { c8heapState with
              heap := c8heapState.heap ++ [[]]
              result := .list 1 }
    ∧ ((calcMult (.list 0) (.num ⟨1, 2⟩) c8heapState).heapAt 1).map List.length = some 0
    ∧ Int.toNat (Dbl.mul ⟨1, 2⟩ (Dbl.ofInt 4)).floor = 2
    ∧ (0 : Nat) ≠ 2 :=
  ⟨rfl, by decide, by decide, by decide⟩

/-- Claim C8, amended. For a list `l` and number `n >= 0`, `l * n` allocates
a new list of length `⌊n⌋ * len(l)` (not `⌊n * len(l)⌋`) whose `i`-th element
is `l[i mod len(l)]`; a negative `n` is the runtime error the claim names. -/
theorem C8_amended_list_repeat (a : Nat) (n : Dbl) (s : EvalState) :
    (n.isNeg = false →
      calcMult (.list a) (.num n) s
        = .ok { s with
                heap := s.heap ++ [listRepeat (s.heap.getD a []) (Int.toNat n.floor)]
                result := .list s.heap.length })
    ∧ (n.isNeg = true →
      calcMult (.list a) (.num n) s = .err "Can not multiply a list by a negative number" s)
    ∧ (∀ (elems : List Value) (k : Nat), (listRepeat elems k).length = k * elems.length)
    ∧ (∀ (elems : List Value) (k i : Nat), i < k * elems.length →
        (listRepeat elems k).getD i Value.nil = elems.getD (i % elems.length) Value.nil) := by
  refine ⟨?_, ?_, ?_, ?_⟩
  · intro hn; simp [calcMult, hn]
  · intro hn; simp [calcMult, hn]
  · intro elems k; simp [listRepeat]
  · intro elems k i hi
    simp [listRepeat, List.getD, List.getElem?_map, List.getElem?_range, hi]

/-- Claim C8, witness: the amended theorem applied to the two-element list at
address `0` and the factor `5/2`, giving `⌊5/2⌋ * 2 = 4` elements with the
expected wrap-around contents. -/
theorem C8_amended_list_repeat_witness :
    calcMult (.list 0) (.num ⟨5, 2⟩) c8wState
      = .ok { c8wState with
              heap := c8wState.heap
                ++ [listRepeat (c8wState.heap.getD 0 []) (Int.toNat (Dbl.floor ⟨5, 2⟩))]
              result := .list c8wState.heap.length }
    ∧ (listRepeat [Value.num 1, Value.num 2] 2).length
        = 2 * [Value.num 1, Value.num 2].length
    ∧ (listRepeat [Value.num 1, Value.num 2] 2).getD 3 Value.nil
        = [Value.num 1, Value.num 2].getD (3 % 2) Value.nil :=
  ⟨(C8_amended_list_repeat 0 ⟨5, 2⟩ c8wState).1 (by decide),
   (C8_amended_list_repeat 0 ⟨5, 2⟩ c8wState).2.2.1 [Value.num 1, Value.num 2] 2,
   (C8_amended_list_repeat 0 ⟨5, 2⟩ c8wState).2.2.2 [Value.num 1, Value.num 2] 2 3 (by decide)⟩

/-- Claim C9, confirmed. `interpret` reports failure exactly on a parse error
or an evaluation error and success otherwise; on failure the output is what
the program wrote so far followed by the diagnostic message and a single
newline (a parse error writes nothing before the message). -/
theorem C9_interpret_success_failure (parsed : Except String (List Node)) (fuel : Nat) :
    (∀ msg, parsed = .error msg → interpret parsed fuel = some (false, msg ++ "\n"))
    ∧ (∀ stmts s, parsed = .ok stmts → evalRoot fuel stmts initState = .ok s →
        interpret parsed fuel = some (true, s.output))
    ∧ (∀ stmts msg s, parsed = .ok stmts → evalRoot fuel stmts initState = .err msg s →
        interpret parsed fuel = some (false, s.output ++ msg ++ "\n")) := by
  refine ⟨?_, ?_, ?_⟩
  · intro msg hp; subst hp; simp [interpret]
  · intro stmts st hp he; subst hp; simp [interpret, he]
  · intro stmts msg st hp he; subst hp; simp [interpret, he]

/-- Claim C9, witness: running `print(1)` then the unbound variable `x`
prints `1`, throws, and `interpret` returns failure with output
`1Variable` + quoted `x` + `not found` and a final newline. -/
theorem C9_interpret_success_failure_witness :
    evalRoot 30 c9prog initState
      = .err ("Variable " ++ sQuote ++ "x" ++ sQuote ++ " not found") c9errState
    ∧ interpret (Except.ok c9prog) 30
      = some (false, c9errState.output
          ++ ("Variable " ++ sQuote ++ "x" ++ sQuote ++ " not found") ++ "\n")
    ∧ c9errState.output ++ ("Variable " ++ sQuote ++ "x" ++ sQuote ++ " not found") ++ "\n"
      = "1Variable " ++ sQuote ++ "x" ++ sQuote ++ " not found\n" := by
  refine ⟨rfl, ?_, rfl⟩
  exact (C9_interpret_success_failure (Except.ok c9prog) 30).2.2 c9prog
    ("Variable " ++ sQuote ++ "x" ++ sQuote ++ " not found") c9errState rfl rfl

/-- Claim C10, confirmed. Comparing two Nil values takes the same-variant
branch of `CalculateCompare` with `std::equal_to` / `std::not_equal_to` on
`std::monostate` (all monostates are equal): from any state, `nil == nil`
evaluates to the Number `1.0` and `nil != nil` to `0.0`. -/
theorem C10_nil_comparisons (s : EvalState) :
    evalNode 10 (.binop .eq .nilLit .nilLit) s = .ok { s with result := .num 1 }
    ∧ evalNode 10 (.binop .ne .nilLit .nilLit) s = .ok { s with result := .num 0 }
    ∧ calcCompareOp .eq .nil .nil = .num 1
    ∧ calcCompareOp .ne .nil .nil = .num 0 :=
  ⟨rfl, rfl, rfl, rfl⟩

/-- Claim C10, witness: the comparison theorem applied at the initial
state. -/
theorem C10_nil_comparisons_witness :
    evalNode 10 (.binop .eq .nilLit .nilLit) initState
      = .ok { initState with result := .num 1 } :=
  (C10_nil_comparisons initState).1
